import Mathlib

/-!
Verification development for the GitLab desktop client
(`gitlab_gui_pro_full.py`), a tkinter GUI that talks to a GitLab REST API.

The Python source is shallowly embedded below:
* pure helpers (`base64`, `str.strip`, `urllib.parse.quote_plus`) become
  executable Lean functions over byte lists (`List Nat`, each byte `< 256`)
  and character lists;
* each `GitLabClient` method becomes a function from an abstract HTTP
  response (status code, body text, parsed body) to `Except String α`,
  mirroring the `raise requests.HTTPError(f"{status}: {text}")` pattern;
* the pagination loop `_paged_get` becomes a fuel-indexed recursion over a
  page-indexed response function, returning the accumulated entries together
  with the number of HTTP requests issued;
* the GUI state touched by `on_login`, `save_cache`/`_load_cache` and
  `populate_groups` becomes explicit record-passing;
* the thread bodies relevant to the threading discipline become explicit
  effect traces.
-/

/-! ## Python string helpers -/

/-- The ASCII whitespace characters stripped by Python's `str.strip()`
(the embedding restricts to ASCII whitespace; base64 output is ASCII). -/
def isPySpace (c : Char) : Bool :=
  c = ' ' || c = '\t' || c = '\n' || c = '\x0d' || c = '\x0b' || c = '\x0c'

/-- Python `str.strip()` on a list of characters: drop whitespace from both
ends. -/
def pyStrip (l : List Char) : List Char :=
  ((l.dropWhile isPySpace).reverse.dropWhile isPySpace).reverse

theorem dropWhile_eq_self_of_forall {p : Char → Bool} :
    ∀ {l : List Char}, (∀ c ∈ l, p c = false) → l.dropWhile p = l
  | [], _ => rfl
  | a :: l, h => by
    have ha : p a = false := h a (List.mem_cons_self a l)
    simp [List.dropWhile, ha]

theorem pyStrip_eq_self {l : List Char} (h : ∀ c ∈ l, isPySpace c = false) :
    pyStrip l = l := by
  unfold pyStrip
  rw [dropWhile_eq_self_of_forall h]
  rw [dropWhile_eq_self_of_forall (by intro c hc; exact h c (List.mem_reverse.mp hc))]
  exact List.reverse_reverse l

/-! ## base64 (as used by the token file fallback)

`save_token` writes `base64.b64encode(token.encode('utf-8'))`; `load_token`
reads the file, strips it, and returns
`base64.b64decode(b).decode('utf-8')`.  Tokens are modelled as their UTF-8
byte lists (`List Nat`, each `< 256`). -/

/-- The standard base64 alphabet used by `base64.b64encode`. -/
def b64Alphabet : List Char :=
  "ABCDEFGHIJKLMNOPQRSTUVWXYZabcdefghijklmnopqrstuvwxyz0123456789+/".data

/-- Index into the base64 alphabet. -/
def toB64Char (i : Nat) : Char := b64Alphabet.getD i 'A'

/-- Inverse table lookup, as performed by `base64.b64decode`. -/
def fromB64Char (c : Char) : Nat := b64Alphabet.indexOf c

/-- `base64.b64encode` on a byte list: 3 input bytes become 4 alphabet
characters; a 1- or 2-byte tail is padded with `'='`. -/
def b64encode : List Nat → List Char
  | [] => []
  | [a] => [toB64Char (a / 4), toB64Char (a % 4 * 16), '=', '=']
  | [a, b] => [toB64Char (a / 4), toB64Char (a % 4 * 16 + b / 16),
      toB64Char (b % 16 * 4), '=']
  | a :: b :: c :: rest =>
      toB64Char (a / 4) :: toB64Char (a % 4 * 16 + b / 16) ::
        toB64Char (b % 16 * 4 + c / 64) :: toB64Char (c % 64) :: b64encode rest

/-- `base64.b64decode` on the character lists produced by `b64encode`:
4 characters become 3 bytes, with `'='` padding ending the input. -/
def b64decode : List Char → List Nat
  | c1 :: c2 :: c3 :: c4 :: rest =>
      if c3 = '=' then
        [fromB64Char c1 * 4 + fromB64Char c2 / 16]
      else if c4 = '=' then
        [fromB64Char c1 * 4 + fromB64Char c2 / 16,
         fromB64Char c2 % 16 * 16 + fromB64Char c3 / 4]
      else
        (fromB64Char c1 * 4 + fromB64Char c2 / 16) ::
        (fromB64Char c2 % 16 * 16 + fromB64Char c3 / 4) ::
        (fromB64Char c3 % 4 * 64 + fromB64Char c4) :: b64decode rest
  | _ => []

theorem fromB64Char_toB64Char : ∀ i, i < 64 → fromB64Char (toB64Char i) = i := by
  decide

theorem toB64Char_ne_pad : ∀ i, i < 64 → toB64Char i ≠ '=' := by
  decide

theorem isPySpace_toB64Char : ∀ i, i < 64 → isPySpace (toB64Char i) = false := by
  decide

theorem b64_roundtrip :
    ∀ bs : List Nat, (∀ b ∈ bs, b < 256) → b64decode (b64encode bs) = bs
  | [], _ => rfl
  | [a], h => by
    have ha : a < 256 := h a (by simp)
    show b64decode [toB64Char (a / 4), toB64Char (a % 4 * 16), '=', '='] = [a]
    rw [b64decode, if_pos rfl]
    rw [fromB64Char_toB64Char _ (by omega), fromB64Char_toB64Char _ (by omega)]
    simp only [List.cons.injEq, and_true]
    omega
  | [a, b], h => by
    have ha : a < 256 := h a (by simp)
    have hb : b < 256 := h b (by simp)
    show b64decode [toB64Char (a / 4), toB64Char (a % 4 * 16 + b / 16),
        toB64Char (b % 16 * 4), '='] = [a, b]
    rw [b64decode, if_neg (toB64Char_ne_pad _ (by omega)), if_pos rfl]
    rw [fromB64Char_toB64Char _ (by omega), fromB64Char_toB64Char _ (by omega),
      fromB64Char_toB64Char _ (by omega)]
    simp only [List.cons.injEq, and_true]
    constructor
    · omega
    · omega
  | a :: b :: c :: rest, h => by
    have ha : a < 256 := h a (by simp)
    have hb : b < 256 := h b (by simp)
    have hc : c < 256 := h c (by simp)
    have hrest : ∀ x ∈ rest, x < 256 := fun x hx => h x (by simp [hx])
    show b64decode (toB64Char (a / 4) :: toB64Char (a % 4 * 16 + b / 16) ::
        toB64Char (b % 16 * 4 + c / 64) :: toB64Char (c % 64) :: b64encode rest)
      = a :: b :: c :: rest
    rw [b64decode, if_neg (toB64Char_ne_pad _ (by omega)),
      if_neg (toB64Char_ne_pad _ (by omega))]
    rw [fromB64Char_toB64Char _ (by omega), fromB64Char_toB64Char _ (by omega),
      fromB64Char_toB64Char _ (by omega), fromB64Char_toB64Char _ (by omega)]
    rw [b64_roundtrip rest hrest]
    simp only [List.cons.injEq, and_true]
    refine ⟨by omega, by omega, by omega⟩

theorem isPySpace_toB64Char_all (i : Nat) : isPySpace (toB64Char i) = false := by
  by_cases h : i < 64
  · exact isPySpace_toB64Char i h
  · have hl : b64Alphabet.length = 64 := rfl
    rw [toB64Char, List.getD_eq_default]
    · rfl
    · omega

theorem b64encode_no_space :
    ∀ bs : List Nat, ∀ ch ∈ b64encode bs, isPySpace ch = false
  | [], _, h => by simp [b64encode] at h
  | [a], ch, h => by
    simp only [b64encode, List.mem_cons, List.not_mem_nil, or_false] at h
    rcases h with h | h | h | h <;> subst h
    · exact isPySpace_toB64Char_all _
    · exact isPySpace_toB64Char_all _
    · rfl
    · rfl
  | [a, b], ch, h => by
    simp only [b64encode, List.mem_cons, List.not_mem_nil, or_false] at h
    rcases h with h | h | h | h <;> subst h
    · exact isPySpace_toB64Char_all _
    · exact isPySpace_toB64Char_all _
    · exact isPySpace_toB64Char_all _
    · rfl
  | a :: b :: c :: rest, ch, h => by
    simp only [b64encode, List.mem_cons] at h
    rcases h with h | h | h | h | h
    · subst h; exact isPySpace_toB64Char_all _
    · subst h; exact isPySpace_toB64Char_all _
    · subst h; exact isPySpace_toB64Char_all _
    · subst h; exact isPySpace_toB64Char_all _
    · exact b64encode_no_space rest ch h

theorem b64encode_ne_nil :
    ∀ bs : List Nat, bs ≠ [] → b64encode bs ≠ []
  | [], h, _ => h rfl
  | [_], _, h => by simp [b64encode] at h
  | [_, _], _, h => by simp [b64encode] at h
  | _ :: _ :: _ :: _, _, h => by simp [b64encode] at h

/-! ## Token persistence (`save_token` / `load_token` / `delete_saved_token`)

The claims concern the `keyring`-unavailable fallback branch, which stores
`base64.b64encode(token)` in `TOKEN_FILE_FALLBACK`.  The file system is
modelled as `Option (List Char)`: the fallback file's content, or `none`
when the file does not exist. -/

/-- `save_token` (fallback branch): write the base64 encoding of the token's
UTF-8 bytes to the token file. -/
def save_token (token : List Nat) (_fs : Option (List Char)) : Option (List Char) :=
  some (b64encode token)

/-- `load_token` (fallback branch): if the file exists, read it, strip it,
and if non-empty return the base64-decoded bytes; otherwise `None`. -/
def load_token (fs : Option (List Char)) : Option (List Nat) :=
  match fs with
  | none => none
  | some content =>
      let b := pyStrip content
      if b = [] then none else some (b64decode b)

/-- `delete_saved_token` (fallback branch): remove the token file. -/
def delete_saved_token (_fs : Option (List Char)) : Option (List Char) := none


/-! ## GitLabClient: single request-response operations

Each method issues one HTTP call and inspects `r.status_code`.  An HTTP
response is modelled as its status code, its body text (`r.text`), and the
value the client extracts from the body on success (`r.json()` for the JSON
endpoints, `r.content` for `get_file_raw`), abstracted as `body : α`. -/

structure HttpResp (α : Type) where
  status : Nat
  text : String
  body : α
deriving DecidableEq

/-- The error message built by every method:
`requests.HTTPError(f"{r.status_code}: {r.text}")`. -/
def httpErrMsg (status : Nat) (text : String) : String :=
  toString status ++ ": " ++ text

/-- `GitLabClient.test`: `GET /user`; 200 returns `r.json()`, otherwise
raise. -/
def GitLabClient.test {α : Type} (r : HttpResp α) : Except String α :=
  if r.status = 200 then Except.ok r.body
  else Except.error (httpErrMsg r.status r.text)

/-- `GitLabClient.create_group`: `POST /groups`; 200 or 201 returns
`r.json()`, otherwise raise. -/
def GitLabClient.create_group {α : Type} (r : HttpResp α) : Except String α :=
  if r.status = 200 ∨ r.status = 201 then Except.ok r.body
  else Except.error (httpErrMsg r.status r.text)

/-- `GitLabClient.create_project`: `POST /projects`; 200 or 201 returns
`r.json()`, otherwise raise. -/
def GitLabClient.create_project {α : Type} (r : HttpResp α) : Except String α :=
  if r.status = 200 ∨ r.status = 201 then Except.ok r.body
  else Except.error (httpErrMsg r.status r.text)

/-- `GitLabClient.list_projects_in_group`: `GET /groups/:id/projects`;
200 returns `r.json()`, otherwise raise. -/
def GitLabClient.list_projects_in_group {α : Type} (r : HttpResp α) :
    Except String α :=
  if r.status = 200 then Except.ok r.body
  else Except.error (httpErrMsg r.status r.text)

/-- `GitLabClient.list_repository_tree`: `GET /projects/:id/repository/tree`;
200 returns `r.json()`, otherwise raise. -/
def GitLabClient.list_repository_tree {α : Type} (r : HttpResp α) :
    Except String α :=
  if r.status = 200 then Except.ok r.body
  else Except.error (httpErrMsg r.status r.text)

/-- `GitLabClient.get_file_raw`: `GET .../repository/files/:path/raw`;
200 returns `r.content` (the raw body, `body` here), otherwise raise. -/
def GitLabClient.get_file_raw {α : Type} (r : HttpResp α) : Except String α :=
  if r.status = 200 then Except.ok r.body
  else Except.error (httpErrMsg r.status r.text)

/-- `GitLabClient.upload_file`: raises `FileNotFoundError` when the local
file is missing; otherwise `POST /projects/:id/uploads`; 200 or 201 returns
`r.json()`, otherwise raise. -/
def GitLabClient.upload_file {α : Type} (fileExists : Bool) (r : HttpResp α) :
    Except String α :=
  if ¬fileExists then Except.error "File không tồn tại"
  else if r.status = 200 ∨ r.status = 201 then Except.ok r.body
  else Except.error (httpErrMsg r.status r.text)

/-- `GitLabClient.commit_files`: `POST /projects/:id/repository/commits`;
200 or 201 returns `r.json()`, otherwise raise. -/
def GitLabClient.commit_files {α : Type} (r : HttpResp α) : Except String α :=
  if r.status = 200 ∨ r.status = 201 then Except.ok r.body
  else Except.error (httpErrMsg r.status r.text)

/-! ## `_paged_get` and `list_groups`

`_paged_get` loops: request page `n` (with `per_page=100`); non-200 raises;
an empty page stops; a page with fewer than 100 entries is appended and
stops; otherwise append and continue with page `n+1`.

The API is modelled as a function from page number (starting at 1) to the
page response; the parsed JSON body of a page is a list of entries.  The
loop is given fuel (it does not terminate on an all-full response stream);
`none` means the fuel ran out with the loop still running.  On termination
the model returns the accumulated result together with the total number of
HTTP requests issued (= the last page number requested). -/

structure PageResp (α : Type) where
  status : Nat
  text : String
  data : List α
deriving DecidableEq

/-- One `while True` iteration state of `_paged_get`: current page and
accumulated `res`. -/
def pagedGetAux {α : Type} (pages : Nat → PageResp α) :
    Nat → List α → Nat → Option (Except String (List α) × Nat)
  | _, _, 0 => none
  | page, acc, fuel + 1 =>
    let r := pages page
    if r.status ≠ 200 then
      some (Except.error (httpErrMsg r.status r.text), page)
    else if r.data.isEmpty then
      some (Except.ok acc, page)
    else if r.data.length < 100 then
      some (Except.ok (acc ++ r.data), page)
    else
      pagedGetAux pages (page + 1) (acc ++ r.data) fuel

/-- `GitLabClient._paged_get`, started at page 1 with empty accumulator. -/
def pagedGet {α : Type} (pages : Nat → PageResp α) (fuel : Nat) :
    Option (Except String (List α) × Nat) :=
  pagedGetAux pages 1 [] fuel

/-- `GitLabClient.list_groups` is `_paged_get('/groups')`. -/
def GitLabClient.list_groups {α : Type} (pages : Nat → PageResp α)
    (fuel : Nat) : Option (Except String (List α) × Nat) :=
  pagedGet pages fuel

/-- In-order concatenation of the `data` of `cnt` pages starting at page
`p`. -/
def flatPages {α : Type} (pages : Nat → PageResp α) : Nat → Nat → List α
  | _, 0 => []
  | p, cnt + 1 => (pages p).data ++ flatPages pages (p + 1) cnt

/-- Any terminating `_paged_get` run only moves past a page after that page
came back with status 200 and a full 100 entries: request `i + 1` is issued
only when page `i` was full. -/
theorem pagedGetAux_pages_before_are_full {α : Type} (pages : Nat → PageResp α) :
    ∀ fuel page acc res k,
      pagedGetAux pages page acc fuel = some (res, k) →
      page ≤ k ∧ ∀ i, page ≤ i → i < k →
        (pages i).status = 200 ∧ 100 ≤ (pages i).data.length := by
  intro fuel
  induction fuel with
  | zero => intro page acc res k h; exact absurd h (by simp [pagedGetAux])
  | succ f ih =>
    intro page acc res k h
    rw [pagedGetAux] at h
    split_ifs at h with h1 h2 h3
    · obtain ⟨-, hk⟩ := Prod.mk.injEq .. ▸ Option.some.inj h
      subst hk
      exact ⟨le_refl _, fun i hpi hik => absurd (lt_of_le_of_lt hpi hik) (lt_irrefl _)⟩
    · obtain ⟨-, hk⟩ := Prod.mk.injEq .. ▸ Option.some.inj h
      subst hk
      exact ⟨le_refl _, fun i hpi hik => absurd (lt_of_le_of_lt hpi hik) (lt_irrefl _)⟩
    · obtain ⟨-, hk⟩ := Prod.mk.injEq .. ▸ Option.some.inj h
      subst hk
      exact ⟨le_refl _, fun i hpi hik => absurd (lt_of_le_of_lt hpi hik) (lt_irrefl _)⟩
    · obtain ⟨hle, hmid⟩ := ih (page + 1) (acc ++ (pages page).data) res k h
      refine ⟨by omega, fun i hpi hik => ?_⟩
      rcases eq_or_lt_of_le hpi with heq | hlt
      · subst heq
        exact ⟨by omega, by omega⟩
      · exact hmid i (by omega) hik

/-- Running `_paged_get` over `d` consecutive full pages followed by a short
(or empty) page at `page + d` terminates there with the concatenation of all
`d + 1` pages and `page + d` as the last page requested. -/
theorem pagedGetAux_run_ok {α : Type} (pages : Nat → PageResp α) :
    ∀ d page acc fuel, d < fuel →
      (∀ i, page ≤ i → i ≤ page + d → (pages i).status = 200) →
      (∀ i, page ≤ i → i < page + d → (pages i).data.length = 100) →
      (pages (page + d)).data.length < 100 →
      pagedGetAux pages page acc fuel =
        some (Except.ok (acc ++ flatPages pages page (d + 1)), page + d) := by
  intro d
  induction d with
  | zero =>
    intro page acc fuel hfuel h200 _ hshort
    obtain ⟨f, rfl⟩ : ∃ f, fuel = f + 1 := ⟨fuel - 1, by omega⟩
    rw [pagedGetAux]
    rw [if_neg (by simp [h200 page (le_refl _) (by omega)])]
    by_cases hemp : (pages page).data.isEmpty
    · rw [if_pos hemp]
      have hnil : (pages page).data = [] := List.isEmpty_iff.mp hemp
      simp [flatPages, hnil]
    · rw [if_neg hemp]
      rw [if_pos (by simpa using hshort)]
      simp [flatPages]
  | succ d ih =>
    intro page acc fuel hfuel h200 hfull hshort
    obtain ⟨f, rfl⟩ : ∃ f, fuel = f + 1 := ⟨fuel - 1, by omega⟩
    rw [pagedGetAux]
    have hlen : (pages page).data.length = 100 :=
      hfull page (le_refl _) (by omega)
    rw [if_neg (by simp [h200 page (le_refl _) (by omega)])]
    rw [if_neg (by simp [List.isEmpty_iff, ← List.length_pos, hlen])]
    rw [if_neg (by omega)]
    have := ih (page + 1) (acc ++ (pages page).data) f (by omega)
      (fun i h1 h2 => h200 i (by omega) (by omega))
      (fun i h1 h2 => hfull i (by omega) (by omega))
      (by have : page + 1 + d = page + (d + 1) := by omega
          rw [this]; exact hshort)
    rw [this]
    have harr : page + 1 + d = page + (d + 1) := by omega
    rw [harr]
    simp [flatPages, List.append_assoc]

/-- Running `_paged_get` over `d` consecutive full pages followed by a
non-200 response at `page + d` raises there: the result is the
status-and-body error and no request beyond `page + d` is issued. -/
theorem pagedGetAux_run_err {α : Type} (pages : Nat → PageResp α) :
    ∀ d page acc fuel, d < fuel →
      (∀ i, page ≤ i → i < page + d →
        (pages i).status = 200 ∧ (pages i).data.length = 100) →
      (pages (page + d)).status ≠ 200 →
      pagedGetAux pages page acc fuel =
        some (Except.error
          (httpErrMsg (pages (page + d)).status (pages (page + d)).text),
          page + d) := by
  intro d
  induction d with
  | zero =>
    intro page acc fuel hfuel _ herr
    obtain ⟨f, rfl⟩ : ∃ f, fuel = f + 1 := ⟨fuel - 1, by omega⟩
    rw [pagedGetAux]
    rw [if_pos (by simpa using herr)]
    simp
  | succ d ih =>
    intro page acc fuel hfuel hfull herr
    obtain ⟨f, rfl⟩ : ∃ f, fuel = f + 1 := ⟨fuel - 1, by omega⟩
    have hp := hfull page (le_refl _) (by omega)
    rw [pagedGetAux]
    rw [if_neg (by simp [hp.1])]
    rw [if_neg (by simp [List.isEmpty_iff, ← List.length_pos, hp.2])]
    rw [if_neg (by omega)]
    have harr : page + 1 + d = page + (d + 1) := by omega
    have := ih (page + 1) (acc ++ (pages page).data) f (by omega)
      (fun i h1 h2 => hfull i (by omega) (by omega))
      (by rw [harr]; exact herr)
    rw [this, harr]

/-! ## Groups and `populate_groups`

A GitLab group object as consumed by the GUI: `id`, `name`, and an optional
`parent_id` (`none` models both an absent key and JSON `null`, which
`g.get('parent_id')` conflates as `None`).  The root filter in the source is
`not g.get('parent_id')`: Python truthiness, so `0` also counts as "no
parent". -/

structure GitLabGroup where
  id : Int
  name : String
  parentId : Option Int
deriving DecidableEq

/-- Python truthiness of `g.get('parent_id')` for an optional integer. -/
def pyTruthy (o : Option Int) : Bool :=
  match o with
  | none => false
  | some v => v ≠ 0

/-- The `populate_groups` root filter: `not g.get('parent_id')`. -/
def isRootGroup (g : GitLabGroup) : Bool := !pyTruthy g.parentId

/-- The sort key of `sorted(roots, key=lambda x: x.get('name','').lower())`. -/
def nameKeyLe (a b : GitLabGroup) : Prop := a.name.toLower ≤ b.name.toLower

instance : DecidableRel nameKeyLe := fun a b =>
  inferInstanceAs (Decidable (a.name.toLower ≤ b.name.toLower))

instance : IsTotal GitLabGroup nameKeyLe :=
  ⟨fun a b => le_total a.name.toLower b.name.toLower⟩

instance : IsTrans GitLabGroup nameKeyLe :=
  ⟨fun _ _ _ h1 h2 => le_trans h1 h2⟩

/-- A Treeview node inserted by `populate_groups`: item id, display text,
the `values` pair, and the children inserted together with it. -/
structure TreeNode where
  iid : String
  text : String
  vals : String × Int
  children : List (String × String)
deriving DecidableEq

/-- The root node inserted for group `rg`, together with its single dummy
placeholder child `(mở để tải...)`. -/
def mkRootNode (rg : GitLabGroup) : TreeNode :=
  { iid := "group_" ++ toString rg.id
    text := rg.name
    vals := ("group", rg.id)
    children := [("group_" ++ toString rg.id ++ "_dummy", "(mở để tải...)")] }

/-- The tree contents built by `populate_groups` from a fetched group list:
clear the tree, filter the roots by Python truthiness of `parent_id`, sort
them by lower-cased name (Python's `sorted` is a stable sort), and insert
one node per root with a dummy child.  Modelled as the resulting root-node
list. -/
def populate_groups (groups : List GitLabGroup) : List TreeNode :=
  (List.insertionSort nameKeyLe (groups.filter isRootGroup)).map mkRootNode

/-! ## Cache (`save_cache` / `_load_cache`)

`save_cache` dumps `{'groups': self._all_groups, 'last_parent':
self.last_parent_name, 'last_subgroup': self.last_subgroup_name}` to a JSON
file; `_load_cache` reads it back with `data.get(key, default)`.  The
JSON-serialisable dict is modelled as an association list over a value sum
type; `json.dump` followed by `json.load` is the identity on such values
(lists of objects with integer/string/null fields). -/

inductive CacheVal where
  | groupList (gs : List GitLabGroup)
  | nameStr (s : Option String)
deriving DecidableEq

/-- The three application fields the cache touches. -/
structure CacheFields where
  allGroups : List GitLabGroup
  lastParentName : Option String
  lastSubgroupName : Option String
deriving DecidableEq

/-- `save_cache`: the dict written to `CACHE_FILE` — exactly the group list
and the two last-used name strings. -/
def save_cache (s : CacheFields) : List (String × CacheVal) :=
  [("groups", CacheVal.groupList s.allGroups),
   ("last_parent", CacheVal.nameStr s.lastParentName),
   ("last_subgroup", CacheVal.nameStr s.lastSubgroupName)]

/-- `_load_cache` applied to a parsed cache dict: `_all_groups =
data.get('groups', [])`, `last_parent_name = data.get('last_parent')`,
`last_subgroup_name = data.get('last_subgroup')`. -/
def load_cache (data : List (String × CacheVal)) : CacheFields :=
  { allGroups :=
      match data.lookup "groups" with
      | some (CacheVal.groupList gs) => gs
      | _ => []
    lastParentName :=
      match data.lookup "last_parent" with
      | some (CacheVal.nameStr v) => v
      | _ => none
    lastSubgroupName :=
      match data.lookup "last_subgroup" with
      | some (CacheVal.nameStr v) => v
      | _ => none }

/-! ## `on_login`

The login worker builds a fresh client, validates the token with
`GitLabClient.test`, and only on success assigns `self.client`,
`self.user_info`, `self.token` and (when the checkbox is set) calls
`save_token`. -/

/-- `BASE_URL` default (`GITLAB_BASE_URL` unset). -/
def BASE_URL : String := "https://git.rikkei.edu.vn/api/v4"

/-- The client object built by `GitLabClient.__init__` / `set_token`. -/
structure GitLabClientObj where
  baseUrl : String
  token : String
  headers : List (String × String)
deriving DecidableEq

/-- Python `str.strip` on a `String`. -/
def pyStripStr (s : String) : String := String.mk (pyStrip s.data)

/-- `GitLabClient(token=token)` with the default base URL:  `set_token`
strips the token and sets the three headers. -/
def mkGitLabClient (token : String) : GitLabClientObj :=
  { baseUrl := BASE_URL
    token := pyStripStr token
    headers :=
      [("PRIVATE-TOKEN", pyStripStr token),
       ("Authorization", "Bearer " ++ pyStripStr token),
       ("Content-Type", "application/json")] }

/-- The authenticated-state fields of `GitLabGUIApp` touched by `on_login`,
plus the status bar. -/
structure AuthState (α : Type) where
  client : Option GitLabClientObj
  userInfo : Option α
  token : Option String
  status : String

/-- The body of the `on_login` worker `task()`: set status, build the
client, run `test`; on success assign the three authenticated-state fields
and (if the save checkbox is set) call `save_token`; on exception only log
and show the error.  Returns the new state and whether `save_token` was
called. -/
def on_login_task {α : Type} (s : AuthState α) (token : String)
    (uname : α → String) (r : HttpResp α) (saveFlag : Bool) :
    AuthState α × Bool :=
  let s1 := { s with status := "Đăng nhập..." }
  let c := mkGitLabClient token
  match GitLabClient.test r with
  | Except.ok user =>
      ({ s1 with
          client := some c
          userInfo := some user
          token := some token
          status := "Đăng nhập: " ++ uname user }, saveFlag)
  | Except.error _ =>
      ({ s1 with status := "Đăng nhập thất bại" }, false)

/-! ## Thread bodies as effect traces

For the threading-discipline claim the relevant code is modelled
statically: the body of each background-thread function is written down as
the ordered list of externally visible effects it performs.  `widget`
effects read or mutate a tkinter widget directly; `afterSchedule` is work
handed to the main loop via `after(...)`. -/

inductive Eff where
  | setStatus (s : String)
  | httpGet (path : String)
  | logPut
  | treeDelete
  | treeInsert (iid : String)
  | logAreaConfig
  | logAreaInsert
  | logAreaSee
  | messageBox
  | afterSchedule
deriving DecidableEq

/-- Effects that read or mutate a tkinter widget directly. -/
def isWidgetEff : Eff → Bool
  | Eff.treeDelete => true
  | Eff.treeInsert _ => true
  | Eff.logAreaConfig => true
  | Eff.logAreaInsert => true
  | Eff.logAreaSee => true
  | _ => false

/-- The success-path effect trace of the `task()` body spawned by
`populate_groups` on a one-shot `threading.Thread`: set status, fetch
groups, log, `self.tree.delete(*children)`, insert the sorted root nodes
and their dummy children, set status. -/
def populate_groups_task_effects (gs : List GitLabGroup) : List Eff :=
  [Eff.setStatus "Tải groups...", Eff.httpGet "/groups", Eff.logPut,
   Eff.treeDelete]
  ++ (List.insertionSort nameKeyLe (gs.filter isRootGroup)).flatMap
      (fun rg =>
        [Eff.treeInsert ("group_" ++ toString rg.id),
         Eff.treeInsert ("group_" ++ toString rg.id ++ "_dummy")])
  ++ [Eff.setStatus "Hoàn thành tải groups"]

/-- One iteration of the dedicated log-worker thread started by
`_start_log_worker`: get a line from `log_queue`, then configure / insert /
scroll / configure the `log_area` widget directly. -/
def log_worker_iteration_effects : List Eff :=
  [Eff.logAreaConfig, Eff.logAreaInsert, Eff.logAreaSee, Eff.logAreaConfig]

/-! ## Request paths (`urllib.parse.quote_plus` and the endpoint table)

Each `requests.get`/`requests.post` call site in the program requests
`f"{base_url}{path}"`; the path parts are collected below, one definition
per call site, in source order. -/

/-- Hex digit used by `urllib.parse.quote` percent-escapes (uppercase). -/
def hexDigitChar (n : Nat) : Char :=
  "0123456789ABCDEF".data.getD n '0'

/-- A byte `urllib.parse.quote` leaves unescaped: ASCII letters, digits,
`_.-~`. -/
def isQuoteSafeByte (b : Nat) : Bool :=
  (65 ≤ b && b ≤ 90) || (97 ≤ b && b ≤ 122) || (48 ≤ b && b ≤ 57) ||
    b = 95 || b = 46 || b = 45 || b = 126

/-- `urllib.parse.quote_plus`: percent-encode every unsafe UTF-8 byte, with
space encoded as `+`. -/
def quote_plus (s : String) : String :=
  String.mk ((s.toUTF8.toList.map (fun b => b.toNat)).flatMap fun b =>
    if b = 32 then ['+']
    else if isQuoteSafeByte b then [Char.ofNat b]
    else ['%', hexDigitChar (b / 16), hexDigitChar (b % 16)])

/-- `GitLabClient.test` requests `GET {base}/user`. -/
def testRequestPaths : List String := ["/user"]

/-- `list_groups` passes `'/groups'` to `_paged_get`; every page request in
the loop targets this path. -/
def listGroupsRequestPath : String := "/groups"

/-- `create_group` requests `POST {base}/groups`. -/
def createGroupRequestPaths : List String := ["/groups"]

/-- `create_project` requests `POST {base}/projects`. -/
def createProjectRequestPaths : List String := ["/projects"]

/-- `list_projects_in_group` requests `GET {base}/groups/{gid}/projects`. -/
def listProjectsInGroupRequestPaths (gid : Int) : List String :=
  ["/groups/" ++ toString gid ++ "/projects"]

/-- `list_repository_tree` requests
`GET {base}/projects/{pid}/repository/tree`. -/
def listRepositoryTreeRequestPaths (pid : Int) : List String :=
  ["/projects/" ++ toString pid ++ "/repository/tree"]

/-- `get_file_raw` requests
`GET {base}/projects/{pid}/repository/files/{quote_plus(path)}/raw`. -/
def getFileRawRequestPaths (pid : Int) (filePath : String) : List String :=
  ["/projects/" ++ toString pid ++ "/repository/files/" ++
    quote_plus filePath ++ "/raw"]

/-- `upload_file` requests `POST {base}/projects/{pid}/uploads`. -/
def uploadFileRequestPaths (pid : Int) : List String :=
  ["/projects/" ++ toString pid ++ "/uploads"]

/-- `commit_files` requests
`POST {base}/projects/{pid}/repository/commits`. -/
def commitFilesRequestPaths (pid : Int) : List String :=
  ["/projects/" ++ toString pid ++ "/repository/commits"]

/-- `action_upload_file` and `action_upload_folder` post directly to
`{base}/projects/{current_project_id}/uploads`. -/
def actionUploadRequestPaths (pid : Int) : List String :=
  ["/projects/" ++ toString pid ++ "/uploads"]

/-- The eight documented GitLab endpoint shapes, with `:id` instantiated to
an integer and `:path` to an arbitrary (encoded) string. -/
def documentedPath (p : String) : Prop :=
  p = "/user" ∨ p = "/groups" ∨ p = "/projects"
  ∨ (∃ gid : Int, p = "/groups/" ++ toString gid ++ "/projects")
  ∨ (∃ pid : Int, p = "/projects/" ++ toString pid ++ "/repository/tree")
  ∨ (∃ (pid : Int) (fp : String),
      p = "/projects/" ++ toString pid ++ "/repository/files/" ++ fp ++ "/raw")
  ∨ (∃ pid : Int, p = "/projects/" ++ toString pid ++ "/uploads")
  ∨ (∃ pid : Int, p = "/projects/" ++ toString pid ++ "/repository/commits")

/-! ## Claim theorems -/

/-- Claim C10: in the keyring-unavailable file-fallback mode, token
persistence round-trips: for every non-empty token (as UTF-8 bytes),
`load_token` after a successful `save_token` returns exactly the token, and
after `delete_saved_token` it returns `None`. -/
theorem c10_token_roundtrip (t : List Nat) (fs fs2 : Option (List Char))
    (ht : t ≠ []) (hbytes : ∀ b ∈ t, b < 256) :
    load_token (save_token t fs) = some t ∧
    load_token (delete_saved_token fs2) = none := by
  constructor
  · show load_token (some (b64encode t)) = some t
    simp only [load_token]
    rw [pyStrip_eq_self (b64encode_no_space t)]
    rw [if_neg (b64encode_ne_nil t ht)]
    rw [b64_roundtrip t hbytes]
  · rfl

/-- Witness for C10 at the concrete token bytes of `"hi"`. -/
theorem c10_token_roundtrip_witness :
    load_token (save_token [104, 105] none) = some [104, 105] ∧
    load_token (delete_saved_token (some ['x'])) = none :=
  c10_token_roundtrip [104, 105] none (some ['x']) (by decide) (by decide)

/-- Claim C3: the cache dict written by `save_cache` holds exactly the keys
`groups`, `last_parent`, `last_subgroup`, and `_load_cache` after
`save_cache` restores `_all_groups`, `last_parent_name` and
`last_subgroup_name` to the saved values. -/
theorem c3_cache_roundtrip (s : CacheFields) :
    (save_cache s).map Prod.fst = ["groups", "last_parent", "last_subgroup"] ∧
    load_cache (save_cache s) = s := by
  exact ⟨rfl, rfl⟩

/-- Claim C9: login is atomic on failure.  If the token-validation `test`
call raises, `on_login`'s worker leaves `client`, `user_info` and `token`
unchanged and never calls `save_token`, even when the save checkbox is
set. -/
theorem c9_login_atomic_on_failure {α : Type} (s : AuthState α)
    (token : String) (uname : α → String) (r : HttpResp α) (saveFlag : Bool)
    (e : String) (herr : GitLabClient.test r = Except.error e) :
    (on_login_task s token uname r saveFlag).1.client = s.client ∧
    (on_login_task s token uname r saveFlag).1.userInfo = s.userInfo ∧
    (on_login_task s token uname r saveFlag).1.token = s.token ∧
    (on_login_task s token uname r saveFlag).2 = false := by
  unfold on_login_task
  rw [herr]
  exact ⟨rfl, rfl, rfl, rfl⟩

/-- Witness for C9 at a concrete 401 response with the save checkbox
set. -/
theorem c9_login_atomic_on_failure_witness :
    (on_login_task (⟨none, none, none, "Sẵn sàng"⟩ : AuthState Nat) "tok"
        (fun _ => "") ⟨401, "unauthorized", 0⟩ true).1.client = none ∧
    (on_login_task (⟨none, none, none, "Sẵn sàng"⟩ : AuthState Nat) "tok"
        (fun _ => "") ⟨401, "unauthorized", 0⟩ true).1.userInfo = none ∧
    (on_login_task (⟨none, none, none, "Sẵn sàng"⟩ : AuthState Nat) "tok"
        (fun _ => "") ⟨401, "unauthorized", 0⟩ true).1.token = none ∧
    (on_login_task (⟨none, none, none, "Sẵn sàng"⟩ : AuthState Nat) "tok"
        (fun _ => "") ⟨401, "unauthorized", 0⟩ true).2 = false :=
  c9_login_atomic_on_failure ⟨none, none, none, "Sẵn sàng"⟩ "tok"
    (fun _ => "") ⟨401, "unauthorized", 0⟩ true
    (httpErrMsg 401 "unauthorized") rfl

/-- Claim C1: every `GitLabClient` operation raises a generic error whose
message is `f"{status_code}: {text}"` (so it contains the status code and
the response body text) on a non-success status, and returns the parsed
response body (the raw `r.content` for `get_file_raw`) on a success status;
success is 200 for the GET operations and `test`, and 200 or 201 for the
POST operations.  For `list_groups` the behaviour is stated on the first
page of its pagination loop. -/
theorem c1_uniform_error_handling {α β : Type} (r : HttpResp α)
    (fileExists : Bool) (pages : Nat → PageResp β) (fuel : Nat) :
    (r.status ≠ 200 →
      GitLabClient.test r = Except.error (httpErrMsg r.status r.text)) ∧
    (r.status = 200 → GitLabClient.test r = Except.ok r.body) ∧
    (¬(r.status = 200 ∨ r.status = 201) →
      GitLabClient.create_group r = Except.error (httpErrMsg r.status r.text)) ∧
    ((r.status = 200 ∨ r.status = 201) →
      GitLabClient.create_group r = Except.ok r.body) ∧
    (¬(r.status = 200 ∨ r.status = 201) →
      GitLabClient.create_project r = Except.error (httpErrMsg r.status r.text)) ∧
    ((r.status = 200 ∨ r.status = 201) →
      GitLabClient.create_project r = Except.ok r.body) ∧
    (r.status ≠ 200 →
      GitLabClient.list_projects_in_group r =
        Except.error (httpErrMsg r.status r.text)) ∧
    (r.status = 200 → GitLabClient.list_projects_in_group r = Except.ok r.body) ∧
    (r.status ≠ 200 →
      GitLabClient.list_repository_tree r =
        Except.error (httpErrMsg r.status r.text)) ∧
    (r.status = 200 → GitLabClient.list_repository_tree r = Except.ok r.body) ∧
    (r.status ≠ 200 →
      GitLabClient.get_file_raw r = Except.error (httpErrMsg r.status r.text)) ∧
    (r.status = 200 → GitLabClient.get_file_raw r = Except.ok r.body) ∧
    (fileExists = true → ¬(r.status = 200 ∨ r.status = 201) →
      GitLabClient.upload_file fileExists r =
        Except.error (httpErrMsg r.status r.text)) ∧
    (fileExists = true → (r.status = 200 ∨ r.status = 201) →
      GitLabClient.upload_file fileExists r = Except.ok r.body) ∧
    (¬(r.status = 200 ∨ r.status = 201) →
      GitLabClient.commit_files r = Except.error (httpErrMsg r.status r.text)) ∧
    ((r.status = 200 ∨ r.status = 201) →
      GitLabClient.commit_files r = Except.ok r.body) ∧
    (1 ≤ fuel → (pages 1).status ≠ 200 →
      GitLabClient.list_groups pages fuel =
        some (Except.error (httpErrMsg (pages 1).status (pages 1).text), 1)) ∧
    (1 ≤ fuel → (pages 1).status = 200 → (pages 1).data.length < 100 →
      GitLabClient.list_groups pages fuel =
        some (Except.ok (pages 1).data, 1)) := by
  refine ⟨fun h => by simp [GitLabClient.test, h],
    fun h => by simp [GitLabClient.test, h],
    fun h => by simp [GitLabClient.create_group, h],
    fun h => by simp [GitLabClient.create_group, h],
    fun h => by simp [GitLabClient.create_project, h],
    fun h => by simp [GitLabClient.create_project, h],
    fun h => by simp [GitLabClient.list_projects_in_group, h],
    fun h => by simp [GitLabClient.list_projects_in_group, h],
    fun h => by simp [GitLabClient.list_repository_tree, h],
    fun h => by simp [GitLabClient.list_repository_tree, h],
    fun h => by simp [GitLabClient.get_file_raw, h],
    fun h => by simp [GitLabClient.get_file_raw, h],
    fun hf h => by simp [GitLabClient.upload_file, hf, h],
    fun hf h => by simp [GitLabClient.upload_file, hf, h],
    fun h => by simp [GitLabClient.commit_files, h],
    fun h => by simp [GitLabClient.commit_files, h],
    fun hfuel h => ?_, fun hfuel h hlen => ?_⟩
  · have := pagedGetAux_run_err pages 0 1 [] fuel (by omega)
      (fun i h1 h2 => absurd (lt_of_le_of_lt h1 h2) (by omega)) (by simpa using h)
    simpa [GitLabClient.list_groups, pagedGet] using this
  · have := pagedGetAux_run_ok pages 0 1 [] fuel (by omega)
      (fun i h1 h2 => by have : i = 1 := by omega
                         rw [this]; simpa using h)
      (fun i h1 h2 => absurd (lt_of_le_of_lt h1 h2) (by omega))
      (by simpa using hlen)
    simpa [GitLabClient.list_groups, pagedGet, flatPages] using this

/-- Witness for C1 exercising the error branch at a 404 response, the
success branches at 200/201 responses, and both first-page behaviours of
`list_groups`. -/
theorem c1_uniform_error_handling_witness :
    GitLabClient.test ({status := 404, text := "nf", body := 0} : HttpResp Nat)
      = Except.error (httpErrMsg 404 "nf") ∧
    GitLabClient.test ({status := 200, text := "ok", body := 7} : HttpResp Nat)
      = Except.ok 7 ∧
    GitLabClient.create_group
      ({status := 404, text := "nf", body := 0} : HttpResp Nat)
      = Except.error (httpErrMsg 404 "nf") ∧
    GitLabClient.create_group
      ({status := 201, text := "ok", body := 8} : HttpResp Nat) = Except.ok 8 ∧
    GitLabClient.create_project
      ({status := 404, text := "nf", body := 0} : HttpResp Nat)
      = Except.error (httpErrMsg 404 "nf") ∧
    GitLabClient.create_project
      ({status := 201, text := "ok", body := 8} : HttpResp Nat) = Except.ok 8 ∧
    GitLabClient.list_projects_in_group
      ({status := 404, text := "nf", body := 0} : HttpResp Nat)
      = Except.error (httpErrMsg 404 "nf") ∧
    GitLabClient.list_repository_tree
      ({status := 404, text := "nf", body := 0} : HttpResp Nat)
      = Except.error (httpErrMsg 404 "nf") ∧
    GitLabClient.get_file_raw
      ({status := 404, text := "nf", body := 0} : HttpResp Nat)
      = Except.error (httpErrMsg 404 "nf") ∧
    GitLabClient.upload_file true
      ({status := 404, text := "nf", body := 0} : HttpResp Nat)
      = Except.error (httpErrMsg 404 "nf") ∧
    GitLabClient.commit_files
      ({status := 404, text := "nf", body := 0} : HttpResp Nat)
      = Except.error (httpErrMsg 404 "nf") ∧
    GitLabClient.list_groups
      (fun _ => ({status := 500, text := "boom", data := []} : PageResp Nat)) 1
      = some (Except.error (httpErrMsg 500 "boom"), 1) ∧
    GitLabClient.list_groups
      (fun _ => ({status := 200, text := "", data := [3]} : PageResp Nat)) 1
      = some (Except.ok [3], 1) := by
  have h404 := c1_uniform_error_handling
    ({status := 404, text := "nf", body := 0} : HttpResp Nat) true
    (fun _ => ({status := 500, text := "boom", data := []} : PageResp Nat)) 1
  have h200 := c1_uniform_error_handling
    ({status := 200, text := "ok", body := 7} : HttpResp Nat) true
    (fun _ => ({status := 200, text := "", data := [3]} : PageResp Nat)) 1
  have h201 := c1_uniform_error_handling
    ({status := 201, text := "ok", body := 8} : HttpResp Nat) true
    (fun _ => ({status := 200, text := "", data := [3]} : PageResp Nat)) 1
  refine ⟨h404.1 (by decide), h200.2.1 (by decide),
    h404.2.2.1 (by decide), h201.2.2.2.1 (by decide),
    h404.2.2.2.2.1 (by decide), h201.2.2.2.2.2.1 (by decide),
    h404.2.2.2.2.2.2.1 (by decide),
    h404.2.2.2.2.2.2.2.2.1 (by decide),
    h404.2.2.2.2.2.2.2.2.2.2.1 (by decide),
    h404.2.2.2.2.2.2.2.2.2.2.2.2.1 rfl (by decide),
    h404.2.2.2.2.2.2.2.2.2.2.2.2.2.2.1 (by decide),
    h404.2.2.2.2.2.2.2.2.2.2.2.2.2.2.2.2.1 (by decide) (by decide),
    h200.2.2.2.2.2.2.2.2.2.2.2.2.2.2.2.2.2 (by decide) (by decide) (by decide)⟩

/-- Claim C8: for every page sequence served with status 200 in which page
`n` is the first page with fewer than 100 entries (pages before it are
full), `_paged_get` terminates, returns the in-order concatenation of pages
1 through `n` inclusive, and issues exactly `n` requests — so page `n + 1`
is never requested, and a further page was only ever requested after a page
of exactly 100 entries. -/
theorem c8_paged_get_concatenates_until_short_page {β : Type}
    (pages : Nat → PageResp β) (n fuel : Nat) (hn : 1 ≤ n) (hfuel : n ≤ fuel)
    (h200 : ∀ i, 1 ≤ i → i ≤ n → (pages i).status = 200)
    (hfull : ∀ i, 1 ≤ i → i < n → (pages i).data.length = 100)
    (hshort : (pages n).data.length < 100) :
    pagedGet pages fuel = some (Except.ok (flatPages pages 1 n), n) := by
  have h1 : 1 + (n - 1) = n := by omega
  have := pagedGetAux_run_ok pages (n - 1) 1 [] fuel (by omega)
    (fun i hi1 hi2 => h200 i hi1 (by omega))
    (fun i hi1 hi2 => hfull i hi1 (by omega))
    (by rw [h1]; exact hshort)
  rw [pagedGet, this, List.nil_append]
  have h2 : n - 1 + 1 = n := by omega
  rw [h1, h2]

/-- Witness for C8: two pages, the first full with 100 entries, the second
short. -/
theorem c8_paged_get_concatenates_until_short_page_witness :
    pagedGet
      (fun p => if p = 1 then ({status := 200, text := "", data := List.replicate 100 0} : PageResp Nat)
                else ({status := 200, text := "", data := [7]} : PageResp Nat)) 2
      = some (Except.ok (List.replicate 100 0 ++ [7]), 2) := by
  have := c8_paged_get_concatenates_until_short_page
    (fun p => if p = 1 then ({status := 200, text := "", data := List.replicate 100 0} : PageResp Nat)
              else ({status := 200, text := "", data := [7]} : PageResp Nat))
    2 2 (by decide) (by decide)
    (by intro i h1 h2
        by_cases hi : i = 1 <;> simp [hi])
    (by intro i h1 h2
        have : i = 1 := by omega
        simp [this])
    (by decide)
  simpa [flatPages] using this

/-- Claim C6: no client method retries.  Each single-shot method issues
exactly one request whatever the response; and in the pagination loop a
request to page `i + 1` is only ever issued after page `i` succeeded
(status 200) — in particular, when page `k` comes back with a non-success
status after `k - 1` full pages, the loop raises the status-and-body error
immediately with `k` as the last page requested. -/
theorem c6_no_retry_after_failure {β γ : Type} (gid pid pid2 pid3 pid4 : Int)
    (fp : String) (pages : Nat → PageResp β) (fuel k : Nat)
    (pages2 : Nat → PageResp γ) (hk : 1 ≤ k) (hfuel : k ≤ fuel)
    (hfull : ∀ i, 1 ≤ i → i < k →
      (pages i).status = 200 ∧ (pages i).data.length = 100)
    (herr : (pages k).status ≠ 200) :
    (testRequestPaths.length = 1 ∧ createGroupRequestPaths.length = 1 ∧
     createProjectRequestPaths.length = 1 ∧
     (listProjectsInGroupRequestPaths gid).length = 1 ∧
     (listRepositoryTreeRequestPaths pid).length = 1 ∧
     (getFileRawRequestPaths pid2 fp).length = 1 ∧
     (uploadFileRequestPaths pid3).length = 1 ∧
     (commitFilesRequestPaths pid4).length = 1) ∧
    GitLabClient.list_groups pages fuel =
      some (Except.error (httpErrMsg (pages k).status (pages k).text), k) ∧
    (∀ fuel2 res k2, GitLabClient.list_groups pages2 fuel2 = some (res, k2) →
      ∀ i, 1 ≤ i → i < k2 → (pages2 i).status = 200) := by
  refine ⟨⟨rfl, rfl, rfl, rfl, rfl, rfl, rfl, rfl⟩, ?_, ?_⟩
  · have h1 : 1 + (k - 1) = k := by omega
    have := pagedGetAux_run_err pages (k - 1) 1 [] fuel (by omega)
      (fun i hi1 hi2 => hfull i hi1 (by omega))
      (by rw [h1]; exact herr)
    rw [GitLabClient.list_groups, pagedGet, this, h1]
  · intro fuel2 res k2 h i hi1 hi2
    exact ((pagedGetAux_pages_before_are_full pages2 fuel2 1 [] res k2 h).2 i hi1 hi2).1

/-- Witness for C6: the first page itself fails with a 500. -/
theorem c6_no_retry_after_failure_witness :
    GitLabClient.list_groups
      (fun _ => ({status := 500, text := "boom", data := []} : PageResp Nat)) 3
      = some (Except.error (httpErrMsg 500 "boom"), 1) := by
  have := c6_no_retry_after_failure (β := Nat) (γ := Nat) 1 1 1 1 1 "f"
    (fun _ => ({status := 500, text := "boom", data := []} : PageResp Nat)) 3 1
    (fun _ => ({status := 200, text := "", data := []} : PageResp Nat))
    (by decide) (by decide)
    (by intro i h1 h2; omega)
    (by decide)
  exact this.2.1

/-- Claim C2 counterexample: `list_groups` is not a single request-response
call.  When page 1 returns exactly 100 entries and page 2 is short, the
pagination loop issues 2 HTTP requests (the second component of the result
is the last page number requested), not 1. -/
theorem c2_counterexample :
    GitLabClient.list_groups
      (fun p => if p = 1 then ({status := 200, text := "", data := List.replicate 100 0} : PageResp Nat)
                else ({status := 200, text := "", data := [5]} : PageResp Nat)) 2
      = some (Except.ok (List.replicate 100 0 ++ [5]), 2) ∧ (2 : Nat) ≠ 1 := by
  constructor
  · rfl
  · decide

/-- Claim C2 (amended): every single-shot operation (`test`,
`create_group`, `create_project`, `list_projects_in_group`,
`list_repository_tree`, `get_file_raw`, `upload_file`, `commit_files`, and
the direct upload in the GUI actions) issues exactly one HTTP request;
`list_groups` issues one request per page, and requests a further page only
after a page that returned status 200 with a full `per_page` (100) load. -/
theorem c2_amended_single_request_except_pagination {β : Type}
    (gid pid pid2 pid3 pid4 pid5 : Int) (fp : String)
    (pages : Nat → PageResp β) (fuel : Nat) (res : Except String (List β))
    (k : Nat) (h : GitLabClient.list_groups pages fuel = some (res, k)) :
    (testRequestPaths.length = 1 ∧ createGroupRequestPaths.length = 1 ∧
     createProjectRequestPaths.length = 1 ∧
     (listProjectsInGroupRequestPaths gid).length = 1 ∧
     (listRepositoryTreeRequestPaths pid).length = 1 ∧
     (getFileRawRequestPaths pid2 fp).length = 1 ∧
     (uploadFileRequestPaths pid3).length = 1 ∧
     (commitFilesRequestPaths pid4).length = 1 ∧
     (actionUploadRequestPaths pid5).length = 1) ∧
    1 ≤ k ∧
    (∀ i, 1 ≤ i → i < k →
      (pages i).status = 200 ∧ 100 ≤ (pages i).data.length) := by
  have hp := pagedGetAux_pages_before_are_full pages fuel 1 [] res k h
  exact ⟨⟨rfl, rfl, rfl, rfl, rfl, rfl, rfl, rfl, rfl⟩, hp.1, hp.2⟩

/-- Witness for C2 (amended) at the two-page run of the counterexample
input. -/
theorem c2_amended_single_request_except_pagination_witness :
    (1 : Nat) ≤ 2 ∧
    ((fun p => if p = 1 then ({status := 200, text := "", data := List.replicate 100 0} : PageResp Nat)
               else ({status := 200, text := "", data := [5]} : PageResp Nat)) 1).status = 200 := by
  have := c2_amended_single_request_except_pagination
    (β := Nat) 1 1 1 1 1 1 "f"
    (fun p => if p = 1 then ({status := 200, text := "", data := List.replicate 100 0} : PageResp Nat)
              else ({status := 200, text := "", data := [5]} : PageResp Nat)) 2
    (Except.ok (List.replicate 100 0 ++ [5])) 2 rfl
  exact ⟨this.2.1, (this.2.2 1 (by decide) (by decide)).1⟩

/-- The root set named by the claim, written from the spec's words for
comparison: groups whose `parent_id` is absent or `null` (both are `none`
in the model). -/
def specClaimRootGroups (gs : List GitLabGroup) : List GitLabGroup :=
  gs.filter (fun g => g.parentId.isNone)

/-- Claim C4 counterexample: for the single fetched group
`{id: 1, name: "a", parent_id: 0}` the claim's root set (parent_id absent
or null) is empty, yet `populate_groups` inserts one root node, because the
source's root filter is Python truthiness (`not g.get('parent_id')`), which
also accepts `0`. -/
theorem c4_counterexample :
    (specClaimRootGroups [{id := 1, name := "a", parentId := some 0}]).length = 0 ∧
    (populate_groups [{id := 1, name := "a", parentId := some 0}]).length = 1 := by
  constructor
  · rfl
  · rfl

/-- Claim C4 (amended): for every fetched group list, `populate_groups`
inserts as root nodes exactly those groups whose `parent_id` is falsy in
Python (absent, null, or `0`), in ascending case-insensitive order of their
names, each root node carrying the `('group', id)` values pair, the
`group_{id}` item id, and a single dummy placeholder child. -/
theorem c4_amended_tree_matches_response (gs : List GitLabGroup) :
    List.Sorted (fun a b : TreeNode => a.text.toLower ≤ b.text.toLower)
      (populate_groups gs) ∧
    ((populate_groups gs).map (fun n => (n.text, n.vals.2))).Perm
      ((gs.filter isRootGroup).map (fun g => (g.name, g.id))) ∧
    ∀ n ∈ populate_groups gs,
      n.vals.1 = "group" ∧ n.iid = "group_" ++ toString n.vals.2 ∧
      n.children = [(n.iid ++ "_dummy", "(mở để tải...)")] := by
  refine ⟨?_, ?_, ?_⟩
  · have hs := List.sorted_insertionSort nameKeyLe (gs.filter isRootGroup)
    exact List.pairwise_map.mpr hs
  · have hperm :=
      (List.perm_insertionSort nameKeyLe (gs.filter isRootGroup)).map
        (fun g : GitLabGroup => (g.name, g.id))
    simpa [populate_groups, List.map_map, Function.comp] using hperm
  · intro n hn
    simp only [populate_groups, List.mem_map] at hn
    obtain ⟨g, -, rfl⟩ := hn
    exact ⟨rfl, rfl, rfl⟩

/-- Witness for C4 (amended) at a concrete one-group list, checking the
node-shape clause on the node of the group named `a`. -/
theorem c4_amended_tree_matches_response_witness :
    (mkRootNode {id := 1, name := "a", parentId := some 0}).vals.1 = "group" ∧
    (mkRootNode {id := 1, name := "a", parentId := some 0}).iid =
      "group_" ++ toString (mkRootNode {id := 1, name := "a", parentId := some 0}).vals.2 ∧
    (mkRootNode {id := 1, name := "a", parentId := some 0}).children =
      [((mkRootNode {id := 1, name := "a", parentId := some 0}).iid ++ "_dummy",
        "(mở để tải...)")] :=
  (c4_amended_tree_matches_response
      [{id := 1, name := "a", parentId := some 0}]).2.2
    (mkRootNode {id := 1, name := "a", parentId := some 0})
    (List.mem_singleton_self _)

/-- Claim C5: every request path built at any of the program's
`requests.get`/`requests.post` call sites — the nine client methods plus
the two direct GUI upload actions — is one of the eight documented GitLab
endpoint paths with its `:id` and `:path` placeholders instantiated, and no
other path. -/
theorem c5_only_documented_endpoints (gid pid pid2 pid3 pid4 pid5 : Int)
    (fp : String) :
    ∀ p ∈ testRequestPaths ++ [listGroupsRequestPath] ++
        createGroupRequestPaths ++ createProjectRequestPaths ++
        listProjectsInGroupRequestPaths gid ++
        listRepositoryTreeRequestPaths pid ++
        getFileRawRequestPaths pid2 fp ++
        uploadFileRequestPaths pid3 ++
        commitFilesRequestPaths pid4 ++
        actionUploadRequestPaths pid5,
      documentedPath p := by
  intro p hp
  simp only [testRequestPaths, listGroupsRequestPath, createGroupRequestPaths,
    createProjectRequestPaths, listProjectsInGroupRequestPaths,
    listRepositoryTreeRequestPaths, getFileRawRequestPaths,
    uploadFileRequestPaths, commitFilesRequestPaths, actionUploadRequestPaths,
    List.append_assoc, List.mem_append, List.mem_singleton] at hp
  rcases hp with rfl | rfl | rfl | rfl | rfl | rfl | rfl | rfl | rfl | rfl
  · exact Or.inl rfl
  · exact Or.inr (Or.inl rfl)
  · exact Or.inr (Or.inl rfl)
  · exact Or.inr (Or.inr (Or.inl rfl))
  · exact Or.inr (Or.inr (Or.inr (Or.inl ⟨gid, rfl⟩)))
  · exact Or.inr (Or.inr (Or.inr (Or.inr (Or.inl ⟨pid, rfl⟩))))
  · exact Or.inr (Or.inr (Or.inr (Or.inr (Or.inr
      (Or.inl ⟨pid2, quote_plus fp, rfl⟩)))))
  · exact Or.inr (Or.inr (Or.inr (Or.inr (Or.inr (Or.inr
      (Or.inl ⟨pid3, rfl⟩))))))
  · exact Or.inr (Or.inr (Or.inr (Or.inr (Or.inr (Or.inr (Or.inr
      ⟨pid4, rfl⟩))))))
  · exact Or.inr (Or.inr (Or.inr (Or.inr (Or.inr (Or.inr
      (Or.inl ⟨pid5, rfl⟩))))))

/-- Witness for C5 at concrete ids and a path argument, on the `/user`
request. -/
theorem c5_only_documented_endpoints_witness :
    documentedPath "/user" :=
  c5_only_documented_endpoints 5 6 7 8 9 10 "a b" "/user" (by simp [testRequestPaths])

/-- Claim C7 counterexample: the `task()` body spawned by `populate_groups`
runs on a one-shot background thread and deletes the Treeview children
directly — a widget effect in background-thread code, contradicting the
claim that widgets are only touched from main-loop callbacks. -/
theorem c7_counterexample :
    Eff.treeDelete ∈ populate_groups_task_effects [] ∧
    isWidgetEff Eff.treeDelete = true := by
  constructor
  · simp [populate_groups_task_effects]
  · rfl

/-- Claim C7 (amended): code running on background threads does read and
mutate widgets directly: for every fetched group list, the
`populate_groups` worker body — executed on a one-shot background thread —
deletes the Treeview children directly (a widget effect), and the dedicated
log-worker thread inserts into the log-area widget directly (a widget
effect). -/
theorem c7_amended_background_threads_touch_widgets (gs : List GitLabGroup) :
    Eff.treeDelete ∈ populate_groups_task_effects gs ∧
    (∃ e ∈ populate_groups_task_effects gs, isWidgetEff e = true) ∧
    Eff.logAreaInsert ∈ log_worker_iteration_effects ∧
    isWidgetEff Eff.logAreaInsert = true := by
  have hmem : Eff.treeDelete ∈ populate_groups_task_effects gs := by
    simp [populate_groups_task_effects]
  exact ⟨hmem, ⟨Eff.treeDelete, hmem, rfl⟩, by simp [log_worker_iteration_effects], rfl⟩
